import Mathlib

/-!
Verification of the quiz session engine in `spi_timer_practice.py`.

The development shallowly embeds the engine: questions are records, the
bounded answer collector (`timed_input`) is modelled by the eventual
behaviour of its reader thread, per-question handling (`ask_question`),
personality aggregation (`summarize_personality`), sampling
(`random.sample` / `sorted(pool, key=id)[:count]`), the CLI session loop
(`run_cli`) and the GUI state machine (`score_selected_option`,
`handle_timeout`, `start_quiz`, `finish_quiz`) are explicit Lean
functions on those records.
-/

namespace SpiPractice

/-- A validated question record, as consumed by the engine.
Fields mirror the JSON keys used by `spi_timer_practice.py`:
`mode`, `category`, `difficulty`, `prompt`, `choices`, `answer_index`,
`explanation`, `trait`, `id`. -/
structure Question where
  mode : String
  category : String
  difficulty : String
  prompt : String
  choices : List String
  answer_index : Nat
  explanation : String
  trait : String
  id : String
deriving DecidableEq

/-- `TIME_LIMITS = {"非言語": 30, "言語": 40, "性格": None}` (line 13).
The two cognitive modes carry a positive budget; personality mode has
none.  (The source dict has exactly these three keys; the engine only
ever looks up one of the three mode labels.) -/
def TIME_LIMITS (mode : String) : Option Nat :=
  if mode = "非言語" then some 30
  else if mode = "言語" then some 40
  else none

/-- Python `str.strip()` on the character list of a string: drop
whitespace from both ends. -/
def stripChars (cs : List Char) : List Char :=
  ((cs.dropWhile Char.isWhitespace).reverse.dropWhile Char.isWhitespace).reverse

/-- Python `str.strip()` (restricted to ASCII whitespace). -/
def pyStrip (s : String) : String :=
  String.mk (stripChars s.data)

/-- The digit characters that are not decimal digits (Unicode
`Numeric_Type=Digit` without `Decimal`): the superscript digits `¹`,
`²`, `³` (U+00B9, U+00B2, U+00B3), `⁰`, `⁴`…`⁹` (U+2070, U+2074–U+2079)
and the subscript digits `₀`…`₉` (U+2080–U+2089).  Python
`str.isdigit()` accepts them, while `int()` rejects them with
`ValueError`. -/
def isDigitNotDecimalChar (c : Char) : Bool :=
  c.toNat = 0xB2 || c.toNat = 0xB3 || c.toNat = 0xB9 || c.toNat = 0x2070 ||
  (0x2074 ≤ c.toNat && c.toNat ≤ 0x2079) ||
  (0x2080 ≤ c.toNat && c.toNat ≤ 0x2089)

/-- Python `str.isdigit()`: non-empty and every character of
`Numeric_Type` Decimal or Digit.  The modelled character set is the
ASCII decimal digits, on which `int()` succeeds, together with the
superscript and subscript digits, on which `isdigit` is true although
`int()` raises `ValueError`; decimal digits of other scripts, which
`int()` parses like the ASCII ones, lie outside the modelled set. -/
def isDigitStr (s : String) : Bool :=
  s.data ≠ [] && s.data.all (fun c => c.isDigit || isDigitNotDecimalChar c)

/-- Decimal value of a string of decimal digits. -/
def strToNat (s : String) : Nat :=
  s.data.foldl (fun n c => n * 10 + (c.toNat - 48)) 0

/-- Python `int()` on a stripped entry: the decimal value when every
character is a decimal digit, and `none` — a raised `ValueError` — on
anything else, in particular on the superscript and subscript digit
characters, which pass the `isdigit` guard and still make `int()`
raise. -/
def pyInt? (s : String) : Option Nat :=
  if s.data ≠ [] && s.data.all Char.isDigit then some (strToNat s) else none

/-- One call of the bounded `timed_input` (lines 20-40) with a positive
timeout, described by the eventual behaviour of the background reader
thread it spawns:
* `line` is the value the reader eventually stores in the fresh
  `user_input` cell of this call: `some s` for a line read from the
  channel, `none` for an `EOFError`;
* `onTime` tells whether the reader finished before `thread.join(timeout)`
  returned, i.e. whether the write to the cell happened inside this
  call's window. -/
structure ReadEvent where
  line : Option String
  onTime : Bool
deriving DecidableEq

/-- Result of one bounded `timed_input` call (lines 27-40): the call
allocates the fresh cell `user_input = [None]`, spawns the reader, joins
with the timeout, and returns `None` when the reader is still alive
(the cell not yet written), otherwise the cell content — which is the
reader's line, or `None` after `EOFError`. -/
def timed_input_bounded (e : ReadEvent) : Option String :=
  if e.onTime then e.line else none

/-- `timed_input` with `timeout is None` (lines 21-25): a plain blocking
`input()`, returning the line, or `None` on `EOFError`. -/
def timed_input_unbounded (line : Option String) : Option String :=
  line

/-- Outcomes of a sequence of bounded collections, one `ReadEvent` per
call: each call reads only its own fresh cell, so its outcome is a
function of its own event alone. -/
def collectOutcomes (events : List ReadEvent) : List (Option String) :=
  events.map timed_input_bounded

/-- Final contents of the per-call `user_input` cells once every reader
thread (abandoned or not) has run to completion: the reader of call `g`
writes its line into cell `g` and nowhere else. -/
def finalCells (events : List ReadEvent) : List (Option String) :=
  events.map (fun e => e.line)

/-- `ask_question` (lines 81-126), with the raw result of `timed_input`
passed in as `answer`.  The outer `none` is an uncaught `ValueError`
abort: line 101 guards with `answer.strip().isdigit()` — true also for
superscript and subscript digit characters — and line 109 then calls
`int(answer)`, which raises on exactly those characters; no handler
catches the exception (the entry point catches only `QuizError`), so
the call, and with it the whole session, dies.  A terminating call
returns the `(is_correct, score)` pair of the source: `is_correct` is
`some b` for a cognitive verdict and `none` when no verdict is produced
(personality mode or skip); `score` is the personality points, produced
only in personality mode on a valid selection. -/
def ask_question (q : Question) (mode : String) (answer : Option String) :
    Option (Option Bool × Option Nat) :=
  match answer with
  | none =>
    if mode = "性格" then some (none, none)
    else some (some false, none)
  | some a =>
    if ¬ isDigitStr (pyStrip a) then
      if mode ≠ "性格" then some (some false, none) else some (none, none)
    else
      match pyInt? (pyStrip a) with
      | none => none
      | some v =>
        let selected : Int := (v : Int) - 1
        if selected < 0 ∨ (q.choices.length : Int) ≤ selected then
          if mode ≠ "性格" then some (some false, none) else some (none, none)
        else
          if mode = "性格" then
            some (none, some (q.choices.length - selected.toNat))
          else
            some (some (decide (selected = (q.answer_index : Int))), none)

/-- The abstract answer outcome of the specification. -/
inductive AnswerOutcome where
  | answered (i : Nat)
  | timedOut
  | invalidInput
  | noInput
deriving DecidableEq

/-- Abstraction of one collection result to the specification's
`AnswerOutcome`, following the branch structure of `ask_question`
(lines 92-116): a `none` result of `timed_input` under a positive
budget is a timeout, under no budget it is end-of-input; a string is
`answered (n-1)` when `int()` parses its stripped form to a value `n`
in `[1, choiceCount]` and invalid otherwise — non-numeric text as well
as digit-class text that `int()` cannot parse. -/
def classify (q : Question) (timeout : Option Nat) (answer : Option String) :
    AnswerOutcome :=
  match answer with
  | none =>
    match timeout with
    | none => .noInput
    | some _ => .timedOut
  | some a =>
    match pyInt? (pyStrip a) with
    | none => .invalidInput
    | some v =>
      let selected : Int := (v : Int) - 1
      if selected < 0 ∨ (q.choices.length : Int) ≤ selected then .invalidInput
      else .answered selected.toNat

/-- One step of the `defaultdict(list)` grouping of
`summarize_personality` (lines 133-135): append `s` to the score list of
trait `t`, keeping first-insertion order of traits (Python dict order). -/
def addRecord (gs : List (String × List Nat)) (t : String) (s : Nat) :
    List (String × List Nat) :=
  match gs with
  | [] => [(t, [s])]
  | (t0, ss) :: rest =>
    if t0 = t then (t0, ss ++ [s]) :: rest
    else (t0, ss) :: addRecord rest t s

/-- The grouped score lists of `summarize_personality`. -/
def groupRecords (records : List (String × Nat)) : List (String × List Nat) :=
  records.foldl (fun gs r => addRecord gs r.1 r.2) []

/-- Tendency label from the average-to-maximum proportion (lines
141-147), with real arithmetic modelled exactly by rationals. -/
def tendencyLabel (avg maxScore : ℚ) : String :=
  if avg / maxScore ≥ 85 / 100 then "高め"
  else if avg / maxScore ≥ 60 / 100 then "標準"
  else "低め"

/-- Average of a list of natural-number scores, as a rational. -/
def avgScore (ss : List Nat) : ℚ :=
  ((ss.map (fun s => (s : ℚ))).sum) / (ss.length : ℚ)

/-- `summarize_personality` (lines 129-152): `none` models the early
return of the no-data message for an empty record list; otherwise the
summary content is the list of `(trait, average, tendency)` lines in
trait first-insertion order, together with the overall average. -/
def summarize_personality (records : List (String × Nat)) (maxScore : Nat) :
    Option (List (String × ℚ × String) × ℚ) :=
  if records = [] then none
  else
    some ((groupRecords records).map
        (fun g => (g.1, avgScore g.2, tendencyLabel (avgScore g.2) (maxScore : ℚ))),
      avgScore (records.map (fun r => r.2)))

/-- Lexicographic comparison of two character lists by code point — the
comparison Python uses on `str` keys in `sorted`. -/
def lexLe : List Char → List Char → Bool
  | [], _ => true
  | _ :: _, [] => false
  | a :: as, b :: bs =>
    if a.toNat < b.toNat then true
    else if b.toNat < a.toNat then false
    else lexLe as bs

/-- Comparison of questions by `id`, the key relation of
`sorted(pool, key=lambda q: q.get("id", ""))` (lines 185, 506). -/
def idLe (a b : Question) : Prop :=
  lexLe a.id.data b.id.data = true

instance : DecidableRel idLe := fun a b => by
  unfold idLe
  infer_instance

/-- `sorted(pool, key=lambda q: q.get("id", ""))`: a stable sort of the
pool by ascending id.  Python `sorted` is a stable sort; it is modelled
by the stable `List.insertionSort`. -/
def sortById (pool : List Question) : List Question :=
  pool.insertionSort idLe

/-- `random.sample(pool, k=count)` (lines 185, 504), modelled as
sampling without replacement driven by an oracle stream of random
numbers: each step removes the element at the chosen index among the
remaining ones.  The source only calls it with `count ≤ len(pool)`. -/
def randomSample : List Question → Nat → List Nat → List Question
  | _, 0, _ => []
  | pool, Nat.succ k, rs =>
    if h : pool.length = 0 then []
    else
      pool.get ⟨rs.headD 0 % pool.length,
          Nat.mod_lt _ (Nat.pos_of_ne_zero h)⟩ ::
        randomSample (pool.eraseIdx (rs.headD 0 % pool.length)) k rs.tail

/-- The session sequence selection of `run_cli` (line 185) and
`start_quiz` (lines 503-506), for a desired count `c`: the count is
first clamped to the pool size (lines 176-183, 493-497), then either a
random sample or the sorted-by-id order is taken. -/
def sampleQuestions (pool : List Question) (c : Nat) (isRandom : Bool)
    (rs : List Nat) : List Question :=
  let count := min c pool.length
  if isRandom then randomSample pool count rs
  else (sortById pool).take count

/-- The stable sampling contract as worded in the specification: the
prefix of length `min c |P|` of the pool sorted ascending
(lexicographically) by question id. -/
def specStableSample (pool : List Question) (c : Nat) : List Question :=
  (pool.insertionSort idLe).take (min c pool.length)

/-- Count resolution of `run_cli` (lines 176-183): a blank entry takes
the default `min 20 |pool|`; a non-digit entry or a zero entry raises
`QuizError` (line 180, modelled `.error`); a digit-class entry that
`int()` cannot parse is an uncaught `ValueError`, modelled by the outer
`none` — the `or` of line 179 short-circuits, so `int(raw_count)` is
evaluated, and can raise, exactly when `isdigit` was true; otherwise
the value is clamped to the pool size. -/
def resolve_count_cli (raw : String) (poolLen : Nat) :
    Option (Except String Nat) :=
  let r := pyStrip raw
  if r ≠ "" then
    if ¬ isDigitStr r then some (.error "問題数は1以上の整数で入力してください。")
    else
      match pyInt? r with
      | none => none
      | some v =>
        if v ≤ 0 then some (.error "問題数は1以上の整数で入力してください。")
        else some (.ok (min v poolLen))
  else some (.ok (min 20 poolLen))

/-- Count resolution of `start_quiz` (lines 493-500), with the same
short-circuit structure: `raw.isdigit() and int(raw) > 0` evaluates
`int(raw)` — which can raise the uncaught `ValueError`, the outer
`none` — only when `isdigit` is true. -/
def resolve_count_gui (raw : String) (poolLen : Nat) :
    Option (Except String Nat) :=
  let r := pyStrip raw
  if r = "" then some (.ok (min 20 poolLen))
  else if isDigitStr r then
    match pyInt? r with
    | none => none
    | some v =>
      if v > 0 then some (.ok (min v poolLen))
      else some (.error "出題数は1以上の整数で入力してください。")
  else some (.error "出題数は1以上の整数で入力してください。")

/-- Configuration of `run_cli` (lines 167-183): an empty filtered pool
raises `QuizError` (line 169) before the count is resolved. -/
def configure_cli (pool : List Question) (raw : String) :
    Option (Except String Nat) :=
  if pool = [] then some (.error "条件に一致する問題がありません。")
  else resolve_count_cli raw pool.length

/-- Configuration of `start_quiz` (lines 488-500): an empty filtered
pool shows an error dialog and returns before the count is resolved. -/
def configure_gui (pool : List Question) (raw : String) :
    Option (Except String Nat) :=
  if pool = [] then some (.error "条件に一致する問題がありません。")
  else resolve_count_gui raw pool.length

/-- The question loop of `run_cli` (lines 191-196), with the stream
`ans` giving the raw `timed_input` result for each question position.
For each question the loop performs one `ask_question` call, adds one to
`correct` exactly when the verdict is `True` (Python truthiness of
`is_correct`), and appends one `(trait, score)` record exactly when the
mode is personality and a score was produced.  Returns the final
`(correct, personality_records)` — or `none` when an `ask_question`
call aborts with the uncaught `ValueError`: the loop dies on the spot,
no further question is asked and no report is ever printed. -/
def run_cli_loop (qs : List Question) (mode : String)
    (ans : Nat → Option String) (i : Nat) :
    Option (Nat × List (String × Nat)) :=
  match qs with
  | [] => some (0, [])
  | q :: rest =>
    match ask_question q mode (ans i) with
    | none => none
    | some r =>
      match run_cli_loop rest mode ans (i + 1) with
      | none => none
      | some tail =>
        some ((if r.1 = some true then 1 else 0) + tail.1,
          (match r.2 with
            | some s => if mode = "性格" then [(q.trait, s)] else []
            | none => []) ++ tail.2)

/-- The per-question results the `run_cli` loop observes: one entry per
question up to the first aborting collection; the aborted question, and
every question after it, yields no entry at all. -/
def sessionTrace (qs : List Question) (mode : String)
    (ans : Nat → Option String) (i : Nat) : List (Option Bool × Option Nat) :=
  match qs with
  | [] => []
  | q :: rest =>
    match ask_question q mode (ans i) with
    | none => []
    | some r => r :: sessionTrace rest mode ans (i + 1)

/-- The engine-relevant part of the GUI `state` dict (lines 303-312):
mode, fixed question sequence, cursor, tally, personality records. -/
structure GuiState where
  mode : String
  quiz : List Question
  index : Nat
  correct : Nat
  records : List (String × Nat)
deriving DecidableEq

/-- `score_selected_option` (lines 405-429), restricted to its effect on
the engine state: in personality mode append the `(trait, n - selected)`
record and advance; in cognitive modes add one to `correct` exactly when
the selection equals `answer_index`, and advance.  (The `timed_out` flag
only changes the feedback text, not the state update.)  When the cursor
is out of range the source would fault; the state is returned unchanged
so that the modelling stays total. -/
def score_selected_option (s : GuiState) (selected : Nat) : GuiState :=
  match s.quiz[s.index]? with
  | none => s
  | some q =>
    if s.mode = "性格" then
      GuiState.mk s.mode s.quiz (s.index + 1) s.correct
        (s.records ++ [(q.trait, q.choices.length - selected)])
    else
      GuiState.mk s.mode s.quiz (s.index + 1)
        (s.correct + (if selected = q.answer_index then 1 else 0))
        s.records

/-- `handle_timeout` (lines 431-448): if a choice is selected
(`choice_var ≥ 0`) the selection is scored as an answer; otherwise the
question yields no record (personality) or an incorrect verdict
(cognitive), and in every branch the cursor advances by one. -/
def handle_timeout (s : GuiState) (choice : Int) : GuiState :=
  if 0 ≤ choice then score_selected_option s choice.toNat
  else if s.mode = "性格" then
    GuiState.mk s.mode s.quiz (s.index + 1) s.correct s.records
  else
    GuiState.mk s.mode s.quiz (s.index + 1) s.correct s.records

/-- `start_quiz` (lines 484-512) after a successful configuration with
resolved count `count`: the session state starts at cursor 0 with a
fresh tally and record list and the sampled question sequence. -/
def start_quiz (mode : String) (pool : List Question) (count : Nat)
    (isRandom : Bool) (rs : List Nat) : GuiState :=
  GuiState.mk mode (sampleQuestions pool count isRandom rs) 0 0 []

/-- The denominator of the accuracy computation of `finish_quiz`
(line 477): the length of the fixed session sequence. -/
def finish_quiz_total (s : GuiState) : Nat :=
  s.quiz.length

/-- The accuracy percentage `correct / count * 100` of `run_cli`
(line 203) and `finish_quiz` (line 477), in exact rational
arithmetic. -/
def accuracy (correct total : Nat) : ℚ :=
  (correct : ℚ) / (total : ℚ) * 100

/-- A concrete cognitive question used to instantiate theorems. -/
def exQ : Question :=
  Question.mk "非言語" "推論" "標準" "1+1は？" ["1", "2", "3"] 1 "2です。" "" "q01"

/-- A second concrete question, personality mode. -/
def exP : Question :=
  Question.mk "性格" "協調" "標準" "チームで動くのが好きだ" ["はい", "どちらかといえばはい", "どちらかといえばいいえ", "いいえ"] 0 "" "協調性" "p01"

/-! ## Helper lemmas -/

theorem collectOutcomes_getElem? (events : List ReadEvent) (j : Nat) :
    (collectOutcomes events)[j]? = events[j]?.map timed_input_bounded := by
  simp [collectOutcomes]

/-! ## Claims -/

/-- C1: in a sequence of bounded collections, a collection that times
out on question `k` returns `None` (the late value is never attributed
to question `k`), and replacing the abandoned reader's eventual value by
anything at all changes no outcome of any collection: a late value
written into the abandoned cell is never consumed by any other
question's collection, in particular not by question `k + 1`. -/
theorem c1_timeout_never_leaks_input (events : List ReadEvent) (k : Nat)
    (hk : k < events.length) (htimeout : events[k].onTime = false) :
    (collectOutcomes events)[k]? = some none ∧
    ∀ late : Option String,
      (collectOutcomes (events.set k (ReadEvent.mk late false)))[k]? = some none ∧
      ∀ j : Nat, j ≠ k →
        (collectOutcomes (events.set k (ReadEvent.mk late false)))[j]? =
          (collectOutcomes events)[j]? := by
  refine ⟨?_, ?_⟩
  · rw [collectOutcomes_getElem?, List.getElem?_eq_getElem hk]
    simp [timed_input_bounded, htimeout]
  · intro late
    refine ⟨?_, ?_⟩
    · rw [collectOutcomes_getElem?, List.getElem?_set]
      simp [hk, timed_input_bounded]
    · intro j hj
      rw [collectOutcomes_getElem?, collectOutcomes_getElem?,
        List.getElem?_set_ne (Ne.symm hj)]

/-- Witness for C1: a three-question run in which question 1 times out;
its collection yields `None`, whatever the abandoned reader later
produces. -/
theorem c1_timeout_never_leaks_input_witness :
    (([ReadEvent.mk (some "1") true, ReadEvent.mk (some "2") false,
        ReadEvent.mk (some "3") true] : List ReadEvent)[1]).onTime = false ∧
    (collectOutcomes [ReadEvent.mk (some "1") true, ReadEvent.mk (some "2") false,
        ReadEvent.mk (some "3") true])[1]? = some none :=
  ⟨by decide,
    (c1_timeout_never_leaks_input
      [ReadEvent.mk (some "1") true, ReadEvent.mk (some "2") false,
        ReadEvent.mk (some "3") true] 1 (by decide) (by decide)).1⟩

/-- C3 counterexample: with a positive timeout, an end-of-input
condition (the reader thread hits `EOFError` and finishes in time) makes
`timed_input` return exactly the same `None` as a timeout does, the
outcome abstraction classifies it as `timedOut`, and `ask_question`
handles the two cases identically — the code produces no `NoInput`
outcome distinct from `TimedOut` in a bounded collection. -/
theorem c3_counterexample_eof_equals_timeout :
    timed_input_bounded (ReadEvent.mk none true) =
      timed_input_bounded (ReadEvent.mk (some "1") false) ∧
    classify exQ (TIME_LIMITS "非言語") (timed_input_bounded (ReadEvent.mk none true)) =
      AnswerOutcome.timedOut ∧
    AnswerOutcome.timedOut ≠ AnswerOutcome.noInput ∧
    ask_question exQ "非言語" (timed_input_bounded (ReadEvent.mk none true)) =
      ask_question exQ "非言語" (timed_input_bounded (ReadEvent.mk (some "1") false)) := by
  refine ⟨rfl, rfl, by decide, rfl⟩

/-- C3 amended: in a bounded collection (positive timeout) an
end-of-input condition yields the same `None` result as a timeout and is
handled by `ask_question` exactly as a timeout (incorrect verdict with
the explanation shown); the end-of-input handling distinct from a
timeout exists only in the unbounded personality collection, where
`None` is the skip path. -/
theorem c3_bounded_eof_behaves_as_timeout (q : Question) :
    timed_input_bounded (ReadEvent.mk none true) = none ∧
    timed_input_bounded (ReadEvent.mk (some "5") false) = none ∧
    ask_question q "非言語" none = some (some false, none) ∧
    ask_question q "言語" none = some (some false, none) ∧
    ask_question q "性格" (timed_input_unbounded none) = some (none, none) := by
  refine ⟨rfl, rfl, rfl, rfl, rfl⟩

theorem isDigitStr_of_pyInt? (s : String) (v : Nat) (h : pyInt? s = some v) :
    isDigitStr s = true := by
  unfold pyInt? at h
  by_cases hc : (s.data ≠ [] && s.data.all Char.isDigit) = true
  · rw [Bool.and_eq_true] at hc
    obtain ⟨hne, hall⟩ := hc
    unfold isDigitStr
    rw [Bool.and_eq_true]
    refine ⟨hne, ?_⟩
    rw [List.all_eq_true] at hall ⊢
    intro c hcm
    rw [Bool.or_eq_true]
    exact Or.inl (hall c hcm)
  · rw [if_neg hc] at h
    exact Option.noConfusion h

theorem pyInt?_eq_none_of_not_digit (s : String) (h : isDigitStr s = false) :
    pyInt? s = none := by
  cases hp : pyInt? s with
  | none => rfl
  | some v =>
    rw [isDigitStr_of_pyInt? s v hp] at h
    exact absurd h (by decide)

theorem ask_question_verdict (q : Question) (mode : String) (t : Option Nat)
    (ans : Option String) (h : mode ≠ "性格") (r : Option Bool × Option Nat)
    (hr : ask_question q mode ans = some r) :
    r.1 = some (decide (classify q t ans = AnswerOutcome.answered q.answer_index)) := by
  cases ans with
  | none =>
    simp only [ask_question, if_neg h, Option.some.injEq] at hr
    subst hr
    cases t with
    | none => simp [classify]
    | some tv => simp [classify]
  | some a =>
    cases hpi : pyInt? (pyStrip a) with
    | none =>
      by_cases hd : isDigitStr (pyStrip a)
      · simp [ask_question, hd, hpi] at hr
      · have hd' : isDigitStr (pyStrip a) = false := by simpa using hd
        simp only [ask_question, classify, hd', hpi, Bool.false_eq_true,
          not_false_eq_true, if_true, if_pos h, Option.some.injEq] at hr ⊢
        subst hr
        simp
    | some v =>
      have hd := isDigitStr_of_pyInt? _ _ hpi
      simp only [ask_question, classify, hpi] at hr ⊢
      rw [if_neg (not_not_intro hd)] at hr
      by_cases hrange : ((v : Int) - 1 < 0 ∨
          (q.choices.length : Int) ≤ (v : Int) - 1)
      · rw [if_pos hrange, if_pos h] at hr
        rw [if_pos hrange]
        simp only [Option.some.injEq] at hr
        subst hr
        rfl
      · rw [if_neg hrange, if_neg h] at hr
        rw [if_neg hrange]
        simp only [Option.some.injEq] at hr
        subst hr
        have hiff : (AnswerOutcome.answered ((v : Int) - 1).toNat =
            AnswerOutcome.answered q.answer_index) ↔
            ((v : Int) - 1 = (q.answer_index : Int)) := by
          simp only [AnswerOutcome.answered.injEq]
          push_neg at hrange
          omega
        rw [decide_eq_decide.mpr hiff]

theorem score_selected_option_correct_iff (s : GuiState) (sel : Nat) (q' : Question)
    (hsm : s.mode ≠ "性格") (hq : s.quiz[s.index]? = some q') :
    ((score_selected_option s sel).correct = s.correct + 1 ↔ sel = q'.answer_index) ∧
    ((score_selected_option s sel).correct = s.correct ↔ sel ≠ q'.answer_index) := by
  unfold score_selected_option
  rw [hq]
  simp only [hsm, if_false, ite_false]
  by_cases hs : sel = q'.answer_index <;> simp [hs]

theorem ask_question_of_answered (q : Question) (mode : String) (t : Option Nat)
    (ans : Option String) (h : mode ≠ "性格") (i : Nat)
    (hcl : classify q t ans = .answered i) :
    ask_question q mode ans = some (some (decide (i = q.answer_index)), none) := by
  cases ans with
  | none => cases t <;> simp [classify] at hcl
  | some a =>
    cases hpi : pyInt? (pyStrip a) with
    | none => simp [classify, hpi] at hcl
    | some v =>
      have hd := isDigitStr_of_pyInt? _ _ hpi
      simp only [classify, hpi] at hcl
      by_cases hrange : ((v : Int) - 1 < 0 ∨
          (q.choices.length : Int) ≤ (v : Int) - 1)
      · rw [if_pos hrange] at hcl
        exact absurd hcl (by simp)
      · rw [if_neg hrange] at hcl
        simp only [AnswerOutcome.answered.injEq] at hcl
        simp only [ask_question, hpi]
        rw [if_neg (not_not_intro hd), if_neg hrange, if_neg h]
        have hdec : decide ((v : Int) - 1 = (q.answer_index : Int)) =
            decide (i = q.answer_index) := by
          rw [decide_eq_decide]
          push_neg at hrange
          omega
        rw [hdec]

/-- C2: in a cognitive mode, whenever a collection terminates with a
verdict the verdict is `True` exactly when the collected outcome is
`answered i` with `i` equal to the question's answer index, and `False`
for every other outcome (a wrong index, a timeout, invalid input, or
end-of-input); an outcome `answered answerIndex` always terminates and
is scored Correct; likewise the GUI tally is incremented by
`score_selected_option` exactly when the scored selection equals the
answer index, and a timeout with no selection leaves the tally
unchanged. -/
theorem c2_cognitive_scorer_correct_iff_answered_index (q : Question)
    (ans : Option String) (mode : String)
    (hmode : mode = "非言語" ∨ mode = "言語") :
    (∀ r, ask_question q mode ans = some r →
      ((r.1 = some true ↔
        classify q (TIME_LIMITS mode) ans = .answered q.answer_index) ∧
       (r.1 = some false ↔
        classify q (TIME_LIMITS mode) ans ≠ .answered q.answer_index))) ∧
    (classify q (TIME_LIMITS mode) ans = .answered q.answer_index →
      ask_question q mode ans = some (some true, none)) ∧
    (∀ (s : GuiState) (sel : Nat) (q' : Question), s.mode = mode →
      s.quiz[s.index]? = some q' →
      ((score_selected_option s sel).correct = s.correct + 1 ↔ sel = q'.answer_index) ∧
      ((score_selected_option s sel).correct = s.correct ↔ sel ≠ q'.answer_index) ∧
      (handle_timeout s (-1)).correct = s.correct) := by
  have hne : mode ≠ "性格" := by
    rcases hmode with h | h <;> subst h <;> decide
  refine ⟨?_, ?_, ?_⟩
  · intro r hr
    rw [ask_question_verdict q mode (TIME_LIMITS mode) ans hne r hr]
    constructor
    · simp
    · simp
  · intro hcl
    rw [ask_question_of_answered q mode (TIME_LIMITS mode) ans hne
      q.answer_index hcl]
    simp
  · intro s sel q' hsm hq
    have hsm' : s.mode ≠ "性格" := by rw [hsm]; exact hne
    refine ⟨(score_selected_option_correct_iff s sel q' hsm' hq).1,
      (score_selected_option_correct_iff s sel q' hsm' hq).2, ?_⟩
    simp [handle_timeout]

/-- Witness for C2: question `exQ` (answer index 1) in nonverbal mode,
answered with the text `2`, terminates and is scored correct; the GUI
increments the tally for selection 1 on the same question. -/
theorem c2_witness :
    ("非言語" = "非言語" ∨ "非言語" = "言語") ∧
    ask_question exQ "非言語" (some "2") = some (some true, none) ∧
    (((some true, none) : Option Bool × Option Nat).1 = some true ↔
      classify exQ (TIME_LIMITS "非言語") (some "2") = .answered exQ.answer_index) ∧
    ((score_selected_option (GuiState.mk "非言語" [exQ] 0 0 []) 1).correct = 0 + 1 ↔
      1 = exQ.answer_index) :=
  ⟨Or.inl rfl,
    by decide,
    ((c2_cognitive_scorer_correct_iff_answered_index exQ (some "2") "非言語"
        (Or.inl rfl)).1 (some true, none) (by decide)).1,
    ((c2_cognitive_scorer_correct_iff_answered_index exQ (some "2") "非言語"
        (Or.inl rfl)).2.2 (GuiState.mk "非言語" [exQ] 0 0 []) 1 exQ rfl (by decide)).1⟩

/-- C5: in personality mode, a collected outcome `answered i` (0-based)
makes `ask_question` yield the score `choiceCount - i` — so the
first-listed choice scores `choiceCount` and the last-listed scores 1 —
and any non-answered outcome yields no score at all; likewise the GUI
appends exactly the record `(trait, choiceCount - i)` for a scored
selection `i` and appends nothing when a timeout fires with no
selection. -/
theorem c5_personality_score_by_position (q : Question) (ans : Option String)
    (i : Nat) :
    (classify q (TIME_LIMITS "性格") ans = .answered i →
      ask_question q "性格" ans = some (none, some (q.choices.length - i))) ∧
    ((∀ j, classify q (TIME_LIMITS "性格") ans ≠ .answered j) →
      ∀ r, ask_question q "性格" ans = some r → r = (none, none)) ∧
    (∀ (s : GuiState) (q' : Question), s.mode = "性格" →
      s.quiz[s.index]? = some q' →
      (score_selected_option s i).records =
        s.records ++ [(q'.trait, q'.choices.length - i)] ∧
      (score_selected_option s i).correct = s.correct) ∧
    (∀ s : GuiState, s.mode = "性格" →
      (handle_timeout s (-1)).records = s.records ∧
      (handle_timeout s (-1)).index = s.index + 1) := by
  have htl : TIME_LIMITS "性格" = none := rfl
  refine ⟨?_, ?_, ?_, ?_⟩
  · intro hcl
    cases ans with
    | none => rw [htl] at hcl; simp [classify] at hcl
    | some a =>
      cases hpi : pyInt? (pyStrip a) with
      | none => simp [classify, hpi] at hcl
      | some v =>
        have hd := isDigitStr_of_pyInt? _ _ hpi
        simp only [classify, hpi] at hcl
        simp only [ask_question, hd, hpi]
        split_ifs at hcl ⊢ with hrange <;> simp_all
  · intro hcl r hr
    cases ans with
    | none =>
      simp only [ask_question, Option.some.injEq] at hr
      simp_all
    | some a =>
      cases hpi : pyInt? (pyStrip a) with
      | none =>
        by_cases hd : isDigitStr (pyStrip a)
        · simp [ask_question, hd, hpi] at hr
        · have hd' : isDigitStr (pyStrip a) = false := by simpa using hd
          simp [ask_question, hd', hpi] at hr
          simp_all
      | some v =>
        have hcl' := hcl ((v : Int) - 1).toNat
        simp only [classify, hpi] at hcl'
        by_cases hrange : ((v : Int) - 1 < 0 ∨
            (q.choices.length : Int) ≤ (v : Int) - 1)
        · have hd := isDigitStr_of_pyInt? _ _ hpi
          simp [ask_question, hd, hpi, hrange] at hr
          simp_all
        · exfalso
          rw [if_neg hrange] at hcl'
          exact hcl' rfl
  · intro s q' hsm hq
    unfold score_selected_option
    rw [hq]
    simp [hsm]
  · intro s hsm
    simp [handle_timeout]

/-- Witness for C5: on the four-choice personality question `exP`, the
answer text `1` is `answered 0` and scores 4; the GUI appends the
record `(協調性, 4)` for selection 0. -/
theorem c5_witness :
    classify exP (TIME_LIMITS "性格") (some "1") = .answered 0 ∧
    ask_question exP "性格" (some "1") = some (none, some (exP.choices.length - 0)) ∧
    (score_selected_option (GuiState.mk "性格" [exP] 0 0 []) 0).records =
      [] ++ [(exP.trait, exP.choices.length - 0)] :=
  ⟨by decide,
    (c5_personality_score_by_position exP (some "1") 0).1 (by decide),
    ((c5_personality_score_by_position exP (some "1") 0).2.2.1
      (GuiState.mk "性格" [exP] 0 0 []) exP rfl (by decide)).1⟩

/-- C4: the guarantee fails on the code.  The answer text `²` (U+00B2,
SUPERSCRIPT TWO) passes the `answer.strip().isdigit()` guard of
`ask_question` (line 101), but `int(answer)` (line 109) then raises
`ValueError`, which no handler catches — the entry point catches only
`QuizError` — so the collection aborts and the session dies on the
spot.  Evaluated on a two-question cognitive session whose first answer
is `²`: the per-question trace is empty and the loop produces no tally,
so the first question (and every later one) is left without any
terminal outcome or scoring update, contrary to
exactly-one-outcome-and-one-update. -/
theorem c4_digit_guard_crash_leaves_question_unscored :
    isDigitStr (pyStrip "²") = true ∧
    pyInt? (pyStrip "²") = none ∧
    ask_question exQ "非言語" (some "²") = none ∧
    sessionTrace [exQ, exQ] "非言語" (fun _ => some "²") 0 = [] ∧
    run_cli_loop [exQ, exQ] "非言語" (fun _ => some "²") 0 = none := by
  refine ⟨rfl, rfl, rfl, rfl, rfl⟩

theorem lexLe_total (as bs : List Char) : lexLe as bs = true ∨ lexLe bs as = true := by
  induction as generalizing bs with
  | nil => left; rfl
  | cons a as ih =>
    cases bs with
    | nil => right; rfl
    | cons b bs =>
      simp only [lexLe]
      rcases Nat.lt_trichotomy a.toNat b.toNat with hlt | heq | hgt
      · left; simp [hlt]
      · have h1 : ¬ a.toNat < b.toNat := by omega
        have h2 : ¬ b.toNat < a.toNat := by omega
        rcases ih bs with h | h
        · left; simp [h1, h2, h]
        · right; simp [h1, h2, h]
      · right; simp [hgt]

theorem lexLe_cons_elim {a b : Char} {as bs : List Char}
    (h : lexLe (a :: as) (b :: bs) = true) :
    a.toNat < b.toNat ∨ (a.toNat = b.toNat ∧ lexLe as bs = true) := by
  simp only [lexLe] at h
  by_cases u1 : a.toNat < b.toNat
  · exact Or.inl u1
  · by_cases u2 : b.toNat < a.toNat
    · rw [if_neg u1, if_pos u2] at h
      exact absurd h (by simp)
    · rw [if_neg u1, if_neg u2] at h
      exact Or.inr ⟨by omega, h⟩

theorem lexLe_trans (as bs cs : List Char) (h1 : lexLe as bs = true)
    (h2 : lexLe bs cs = true) : lexLe as cs = true := by
  induction as generalizing bs cs with
  | nil => rfl
  | cons a as ih =>
    cases bs with
    | nil => simp [lexLe] at h1
    | cons b bs =>
      cases cs with
      | nil => simp [lexLe] at h2
      | cons c cs =>
        rcases lexLe_cons_elim h1 with u | ⟨ue, ur⟩
        · rcases lexLe_cons_elim h2 with v | ⟨ve, vr⟩ <;>
            simp [lexLe, show a.toNat < c.toNat by omega]
        · rcases lexLe_cons_elim h2 with v | ⟨ve, vr⟩
          · simp [lexLe, show a.toNat < c.toNat by omega]
          · have g1 : ¬ a.toNat < c.toNat := by omega
            have g2 : ¬ c.toNat < a.toNat := by omega
            simp only [lexLe, if_neg g1, if_neg g2]
            exact ih bs cs ur vr

instance : IsTotal Question idLe :=
  ⟨fun a b => lexLe_total a.id.data b.id.data⟩

instance : IsTrans Question idLe :=
  ⟨fun a b c => lexLe_trans a.id.data b.id.data c.id.data⟩

theorem stable_sample_length (pool : List Question) (c : Nat) (rs : List Nat) :
    (sampleQuestions pool c false rs).length = min c pool.length := by
  simp only [sampleQuestions, sortById, if_neg Bool.false_ne_true]
  rw [List.length_take, List.length_insertionSort]
  omega

/-- C6: the stable ordering of the sampler is deterministic and equal
to the sorted-by-ascending-id order of the pool truncated to
`min c |P|` elements; the result has exactly that length and is sorted
by id. -/
theorem c6_stable_sampling_matches_sorted_take (pool : List Question) (c : Nat)
    (rs : List Nat) :
    sampleQuestions pool c false rs = specStableSample pool c ∧
    (sampleQuestions pool c false rs).length = min c pool.length ∧
    List.Sorted idLe (sampleQuestions pool c false rs) := by
  refine ⟨rfl, stable_sample_length pool c rs, ?_⟩
  simp only [sampleQuestions, sortById, if_neg Bool.false_ne_true]
  exact ((List.sorted_insertionSort idLe pool).sublist (List.take_sublist _ _))

theorem get_not_mem_eraseIdx {α : Type} (l : List α) (i : Nat) (h : i < l.length)
    (hnd : l.Nodup) : l.get ⟨i, h⟩ ∉ l.eraseIdx i := by
  induction l generalizing i with
  | nil => simp at h
  | cons a t ih =>
    cases i with
    | zero =>
      simp only [List.get, List.eraseIdx]
      exact (List.nodup_cons.mp hnd).1
    | succ i =>
      simp only [List.get, List.eraseIdx, List.mem_cons]
      rintro (heq | hmem)
      · have : t.get ⟨i, by simpa using h⟩ ∈ t := List.get_mem t _ _
        rw [heq] at this
        exact (List.nodup_cons.mp hnd).1 this
      · exact ih i (by simpa using h) (List.nodup_cons.mp hnd).2 hmem

theorem randomSample_length (pool : List Question) (k : Nat) (rs : List Nat)
    (h : k ≤ pool.length) : (randomSample pool k rs).length = k := by
  induction k generalizing pool rs with
  | zero => rfl
  | succ k ih =>
    have hp : pool.length ≠ 0 := by omega
    have hmod : rs.headD 0 % pool.length < pool.length :=
      Nat.mod_lt _ (Nat.pos_of_ne_zero hp)
    simp only [randomSample, dif_neg hp, List.length_cons]
    rw [ih (pool.eraseIdx _) rs.tail]
    rw [List.length_eraseIdx, if_pos hmod]
    omega

theorem randomSample_subset (pool : List Question) (k : Nat) (rs : List Nat) :
    ∀ x ∈ randomSample pool k rs, x ∈ pool := by
  induction k generalizing pool rs with
  | zero => simp [randomSample]
  | succ k ih =>
    intro x hx
    by_cases hp : pool.length = 0
    · simp [randomSample, hp] at hx
    · simp only [randomSample, dif_neg hp, List.mem_cons] at hx
      rcases hx with rfl | hx
      · exact List.get_mem pool _ _
      · exact (List.eraseIdx_sublist pool _).subset (ih _ rs.tail x hx)

theorem randomSample_nodup (pool : List Question) (k : Nat) (rs : List Nat)
    (hnd : pool.Nodup) : (randomSample pool k rs).Nodup := by
  induction k generalizing pool rs with
  | zero => simp [randomSample]
  | succ k ih =>
    by_cases hp : pool.length = 0
    · simp [randomSample, hp]
    · simp only [randomSample, dif_neg hp]
      refine List.nodup_cons.mpr ⟨?_, ih _ rs.tail ((List.eraseIdx_sublist pool _).nodup hnd)⟩
      intro hmem
      exact get_not_mem_eraseIdx pool _ _ hnd
        (randomSample_subset _ _ _ _ hmem)

/-- C7: for any pool and any valid desired count `c ≥ 1`, the sampled
session sequence — in random as well as stable ordering — has length
exactly `min c |P|`, draws only questions of the pool, and contains no
question twice. -/
theorem c7_sample_length_subset_nodup (pool : List Question) (c : Nat)
    (b : Bool) (rs : List Nat) (hc : 1 ≤ c) (hnd : pool.Nodup) :
    (sampleQuestions pool c b rs).length = min c pool.length ∧
    (∀ x ∈ sampleQuestions pool c b rs, x ∈ pool) ∧
    (sampleQuestions pool c b rs).Nodup := by
  cases b with
  | false =>
    refine ⟨stable_sample_length pool c rs, ?_, ?_⟩
    · intro x hx
      simp only [sampleQuestions, sortById, if_neg Bool.false_ne_true] at hx
      have := (List.take_sublist _ _).subset hx
      exact ((List.perm_insertionSort idLe pool).mem_iff).mp this
    · simp only [sampleQuestions, sortById, if_neg Bool.false_ne_true]
      exact (List.take_sublist _ _).nodup
        ((List.perm_insertionSort idLe pool).symm.nodup hnd)
  | true =>
    have hle : min c pool.length ≤ pool.length := Nat.min_le_right _ _
    refine ⟨?_, ?_, ?_⟩
    · simp only [sampleQuestions, if_pos rfl]
      exact randomSample_length pool _ rs hle
    · intro x hx
      simp only [sampleQuestions, if_pos rfl] at hx
      exact randomSample_subset pool _ rs x hx
    · simp only [sampleQuestions, if_pos rfl]
      exact randomSample_nodup pool _ rs hnd

/-- Witness for C7: a two-question pool sampled randomly with c = 1
yields one question from the pool with no duplicates. -/
theorem c7_witness :
    (1 ≤ 1 ∧ ([exQ, exP] : List Question).Nodup) ∧
    (sampleQuestions [exQ, exP] 1 true [1, 0]).length = min 1 2 ∧
    (∀ x ∈ sampleQuestions [exQ, exP] 1 true [1, 0], x ∈ [exQ, exP]) ∧
    (sampleQuestions [exQ, exP] 1 true [1, 0]).Nodup :=
  ⟨⟨le_refl 1, by decide⟩,
    (c7_sample_length_subset_nodup [exQ, exP] 1 true [1, 0] (le_refl 1) (by decide)).1,
    (c7_sample_length_subset_nodup [exQ, exP] 1 true [1, 0] (le_refl 1) (by decide)).2.1,
    (c7_sample_length_subset_nodup [exQ, exP] 1 true [1, 0] (le_refl 1) (by decide)).2.2⟩

/-- C9: a blank desired-count entry is accepted by both front ends and
resolves to `min 20 |pool|` questions. -/
theorem c9_blank_count_defaults (poolLen : Nat) :
    resolve_count_cli "" poolLen = some (.ok (min 20 poolLen)) ∧
    resolve_count_gui "" poolLen = some (.ok (min 20 poolLen)) :=
  ⟨rfl, rfl⟩

theorem addRecord_groups_nonempty (gs : List (String × List Nat)) (t : String)
    (s : Nat) (h : ∀ g ∈ gs, g.2 ≠ []) : ∀ g ∈ addRecord gs t s, g.2 ≠ [] := by
  induction gs with
  | nil =>
    intro g hg
    simp only [addRecord, List.mem_singleton] at hg
    subst hg
    simp
  | cons g0 rest ih =>
    intro g hg
    obtain ⟨t0, ss⟩ := g0
    simp only [addRecord] at hg
    split_ifs at hg with ht
    · rcases List.mem_cons.mp hg with rfl | hg
      · simp
      · exact h g (List.mem_cons_of_mem _ hg)
    · rcases List.mem_cons.mp hg with rfl | hg
      · exact h (t0, ss) (List.mem_cons_self _ _)
      · exact ih (fun g' hg' => h g' (List.mem_cons_of_mem _ hg')) g hg

theorem groupRecords_nonempty (records : List (String × Nat)) :
    ∀ g ∈ groupRecords records, g.2 ≠ [] := by
  have main : ∀ (rs : List (String × Nat)) (gs : List (String × List Nat)),
      (∀ g ∈ gs, g.2 ≠ []) →
      ∀ g ∈ rs.foldl (fun acc r => addRecord acc r.1 r.2) gs, g.2 ≠ [] := by
    intro rs
    induction rs with
    | nil => intro gs h; simpa using h
    | cons r rest ih =>
      intro gs h
      exact ih _ (addRecord_groups_nonempty gs r.1 r.2 h)
  exact main records [] (by simp)

theorem tendencyLabel_characterisation (avg m : ℚ) :
    (tendencyLabel avg m = "高め" ↔ avg / m ≥ 85 / 100) ∧
    (tendencyLabel avg m = "標準" ↔
      (60 / 100 ≤ avg / m ∧ avg / m < 85 / 100)) ∧
    (tendencyLabel avg m = "低め" ↔ avg / m < 60 / 100) := by
  unfold tendencyLabel
  split_ifs with h1 h2
  · refine ⟨by simp [h1], ?_, ?_⟩
    · constructor
      · intro hs; exact absurd hs (by decide)
      · intro ⟨_, hlt⟩; linarith
    · constructor
      · intro hs; exact absurd hs (by decide)
      · intro hlt; linarith
  · refine ⟨?_, ?_, ?_⟩
    · constructor
      · intro hs; exact absurd hs (by decide)
      · intro hge; exact absurd hge h1
    · simp only [true_iff]
      exact ⟨h2, lt_of_not_ge h1⟩
    · constructor
      · intro hs; exact absurd hs (by decide)
      · intro hlt; linarith
  · refine ⟨?_, ?_, ?_⟩
    · constructor
      · intro hs; exact absurd hs (by decide)
      · intro hge; exact absurd hge h1
    · constructor
      · intro hs; exact absurd hs (by decide)
      · intro ⟨hge, _⟩; exact absurd hge h2
    · exact ⟨fun _ => lt_of_not_ge h2, fun _ => rfl⟩

/-- C8: the aggregator labels every trait line by the proportion of its
average to the maximum score — high exactly when it is at least 0.85,
standard exactly when it is in [0.60, 0.85), low exactly when it is
below 0.60 — and an empty record list gives the distinguishable no-data
result; every per-trait average and the overall average divide by a
positive count, so no division of the summary is by zero. -/
theorem c8_personality_aggregation_thresholds (records : List (String × Nat))
    (m : Nat) (hne : records ≠ []) :
    summarize_personality [] m = none ∧
    (∃ out, summarize_personality records m = some out ∧
      ∀ e ∈ out.1,
        (e.2.2 = "高め" ↔ e.2.1 / (m : ℚ) ≥ 85 / 100) ∧
        (e.2.2 = "標準" ↔
          (60 / 100 ≤ e.2.1 / (m : ℚ) ∧ e.2.1 / (m : ℚ) < 85 / 100)) ∧
        (e.2.2 = "低め" ↔ e.2.1 / (m : ℚ) < 60 / 100)) ∧
    (∀ g ∈ groupRecords records, 0 < g.2.length) ∧
    0 < records.length := by
  refine ⟨rfl, ?_, ?_, ?_⟩
  · unfold summarize_personality
    rw [if_neg hne]
    refine ⟨_, rfl, ?_⟩
    intro e he
    simp only [List.mem_map] at he
    obtain ⟨g, _, rfl⟩ := he
    exact tendencyLabel_characterisation (avgScore g.2) (m : ℚ)
  · intro g hg
    exact List.length_pos.mpr (groupRecords_nonempty records g hg)
  · exact List.length_pos.mpr hne

/-- Witness for C8: two maximal records on one trait produce a summary
whose single line is labelled high. -/
theorem c8_witness :
    ([("協調性", 4), ("協調性", 4)] : List (String × Nat)) ≠ [] ∧
    summarize_personality ([] : List (String × Nat)) 4 = none ∧
    (∀ g ∈ groupRecords [("協調性", 4), ("協調性", 4)], 0 < g.2.length) :=
  ⟨by decide,
    (c8_personality_aggregation_thresholds [("協調性", 4), ("協調性", 4)] 4
      (by decide)).1,
    (c8_personality_aggregation_thresholds [("協調性", 4), ("協調性", 4)] 4
      (by decide)).2.2.1⟩

theorem resolve_count_cli_ok (raw : String) (poolLen n : Nat)
    (hp : 0 < poolLen) (h : resolve_count_cli raw poolLen = some (.ok n)) :
    1 ≤ n ∧ n ≤ poolLen := by
  simp only [resolve_count_cli] at h
  by_cases h1 : pyStrip raw ≠ ""
  · rw [if_pos h1] at h
    by_cases h2 : ¬ isDigitStr (pyStrip raw)
    · rw [if_pos h2] at h
      simp only [Option.some.injEq] at h
      exact Except.noConfusion h
    · rw [if_neg h2] at h
      cases hpi : pyInt? (pyStrip raw) with
      | none =>
        simp only [hpi] at h
        exact Option.noConfusion h
      | some v =>
        simp only [hpi] at h
        by_cases h3 : v ≤ 0
        · rw [if_pos h3] at h
          simp only [Option.some.injEq] at h
          exact Except.noConfusion h
        · rw [if_neg h3] at h
          simp only [Option.some.injEq, Except.ok.injEq] at h
          omega
  · rw [if_neg h1] at h
    simp only [Option.some.injEq, Except.ok.injEq] at h
    omega

theorem resolve_count_gui_ok (raw : String) (poolLen n : Nat)
    (hp : 0 < poolLen) (h : resolve_count_gui raw poolLen = some (.ok n)) :
    1 ≤ n ∧ n ≤ poolLen := by
  simp only [resolve_count_gui] at h
  by_cases h1 : pyStrip raw = ""
  · rw [if_pos h1] at h
    simp only [Option.some.injEq, Except.ok.injEq] at h
    omega
  · rw [if_neg h1] at h
    by_cases h2 : isDigitStr (pyStrip raw)
    · rw [if_pos h2] at h
      cases hpi : pyInt? (pyStrip raw) with
      | none =>
        simp only [hpi] at h
        exact Option.noConfusion h
      | some v =>
        simp only [hpi] at h
        by_cases h3 : v > 0
        · rw [if_pos h3] at h
          simp only [Option.some.injEq, Except.ok.injEq] at h
          omega
        · rw [if_neg h3] at h
          simp only [Option.some.injEq] at h
          exact Except.noConfusion h
    · rw [if_neg h2] at h
      simp only [Option.some.injEq] at h
      exact Except.noConfusion h

/-- C10: whenever configuration succeeds (which requires a non-empty
filtered pool and a count of at least one), the resolved count — which
is the session length, both the CLI loop bound and the length of the
GUI quiz sequence used by the final report — is at least 1, so the
accuracy computation `correct / count * 100` never divides by zero. -/
theorem c10_accuracy_division_safe (pool : List Question) (raw : String)
    (n : Nat) (b : Bool) (rs : List Nat) (mode : String)
    (h : configure_cli pool raw = some (.ok n) ∨
      configure_gui pool raw = some (.ok n)) :
    1 ≤ n ∧ n ≤ pool.length ∧
    (sampleQuestions pool n b rs).length = n ∧
    finish_quiz_total (start_quiz mode pool n b rs) = n ∧
    ((n : ℚ) ≠ 0 ∧ ∀ correct : Nat,
      accuracy correct n = (correct : ℚ) * 100 / (n : ℚ)) := by
  have hpool : pool ≠ [] ∧ (1 ≤ n ∧ n ≤ pool.length) := by
    rcases h with h | h
    · unfold configure_cli at h
      split_ifs at h with hp
      · simp only [Option.some.injEq] at h
        exact Except.noConfusion h
      · exact ⟨hp, resolve_count_cli_ok raw pool.length n
          (List.length_pos.mpr hp) h⟩
    · unfold configure_gui at h
      split_ifs at h with hp
      · simp only [Option.some.injEq] at h
        exact Except.noConfusion h
      · exact ⟨hp, resolve_count_gui_ok raw pool.length n
          (List.length_pos.mpr hp) h⟩
  obtain ⟨hp, h1, h2⟩ := hpool
  have hmin : min n pool.length = n := by omega
  have hlen : (sampleQuestions pool n b rs).length = n := by
    cases b with
    | false =>
      rw [stable_sample_length pool n rs, hmin]
    | true =>
      have hs : sampleQuestions pool n true rs =
          randomSample pool (min n pool.length) rs := by
        simp [sampleQuestions]
      rw [hs, randomSample_length pool _ rs (Nat.min_le_right _ _), hmin]
  refine ⟨h1, h2, hlen, ?_, ?_, ?_⟩
  · simpa [finish_quiz_total, start_quiz] using hlen
  · exact Nat.cast_ne_zero.mpr (by omega)
  · intro correct
    unfold accuracy
    ring

/-- Witness for C10: a one-question pool with a blank count entry
configures a session of length 1, whose accuracy denominator is
nonzero. -/
theorem c10_witness :
    (configure_cli [exQ] "" = some (.ok 1) ∨
      configure_gui [exQ] "" = some (.ok 1)) ∧
    1 ≤ 1 ∧ (((1 : Nat) : ℚ) ≠ 0) :=
  ⟨Or.inl rfl,
    (c10_accuracy_division_safe [exQ] "" 1 false [] "非言語" (Or.inl rfl)).1,
    ((c10_accuracy_division_safe [exQ] "" 1 false [] "非言語" (Or.inl rfl)).2.2.2.2).1⟩

end SpiPractice
